import Mathlib

set_option maxRecDepth 8000

/-!
Shallow embedding of the BitBreaker tournament backend (JavaScript sources)
for checking the natural-language specification against the code.

Conventions used throughout:
* machine integers (satoshi amounts, scores, timestamps in ms) are `Nat`;
  signed journal amounts are `Int`;
* JavaScript floating-point expressions such as `Math.floor(x * 0.02)` are
  modelled in exact arithmetic (`x * 2 / 100` over `Nat`, rational division
  over `ℚ` inside the anti-cheat gate); every concrete counterexample below
  has been checked to evaluate identically under IEEE-754 doubles;
* the ephemeral cache is an association list from string keys to values, and
  handlers are pure state-passing functions; cache eviction by TTL is not
  modelled separately because every handler re-checks expiry itself with the
  same TTL constant;
* fallible operations return `Option`.
-/

namespace BitBreaker

/-! ## Tournament close: winners, leaderboard, payouts
    From backend/src/services/database.js (entries.getTopThree,
    entries.getLeaderboard) and backend/src/services/tournamentEngine.js
    (closeTournament). -/

/-- A row of the `tournament_entries` join used by getTopThree and
getLeaderboard: the user id, the best score, and the Lightning address. -/
structure EntryRow where
  userId : Nat
  bestScore : Nat
  lightningAddress : String
deriving DecidableEq, Repr

/-- The JS comparator `(a, b) => b.best_score - a.best_score`: sort entries
by best score, descending. -/
def sortByScoreDesc (l : List EntryRow) : List EntryRow :=
  l.insertionSort (fun a b => b.bestScore ≤ a.bestScore)

/-- database.js entries.getTopThree: all entries of the tournament ordered by
best_score descending, truncated to three, with NO filter on the score. -/
def getTopThree (l : List EntryRow) : List EntryRow :=
  (sortByScoreDesc l).take 3

/-- database.js entries.getLeaderboard: entries with best_score strictly
positive, ordered by best_score descending, truncated to the limit. -/
def getLeaderboard (l : List EntryRow) (limit : Nat) : List EntryRow :=
  (sortByScoreDesc (l.filter (fun e => 0 < e.bestScore))).take limit

/-- tournamentEngine.js PRIZE_DISTRIBUTION, percentages written over 100:
50 percent to 1st, 30 percent to 2nd, 20 percent to 3rd. -/
def PRIZE_DISTRIBUTION : List (Nat × Nat) :=
  [(1, 50), (2, 30), (3, 20)]

/-- Math.floor(totalPool * HOUSE_FEE_PERCENTAGE) with HOUSE_FEE_PERCENTAGE
equal to 0.02, in exact arithmetic. -/
def houseFee (pool : Nat) : Nat := pool * 2 / 100

/-- tournamentEngine.js: distributablePool = totalPool - houseFee.  Note the
code subtracts the floored fee; it does NOT compute floor(pool * 0.98). -/
def distributablePool (pool : Nat) : Nat := pool - houseFee pool

/-- A payouts table row as created by db.payouts.create during close. -/
structure PayoutRow where
  userId : Nat
  place : Nat
  amountSats : Nat
  lightningAddress : String
deriving DecidableEq, Repr

/-- Math.floor(distributablePool * percentage) for one prize share, in exact
arithmetic with the percentage given over 100. -/
def payoutAmount (dist pct : Nat) : Nat := dist * pct / 100

/-- One iteration of the payout-creation loop of closeTournament: a Payout
row is created only when the floored amount is positive. -/
def mkPayout (dist : Nat) (w : EntryRow) (pd : Nat × Nat) : Option PayoutRow :=
  if 0 < payoutAmount dist pd.2 then
    some ⟨w.userId, pd.1, payoutAmount dist pd.2, w.lightningAddress⟩
  else none

/-- The payout-creation loop of closeTournament: for i below min(3, winners),
pair the i-th winner with the i-th prize percentage. -/
def payoutRows (dist : Nat) (winners : List EntryRow) : List PayoutRow :=
  ((winners.take 3).zip PRIZE_DISTRIBUTION).filterMap fun wp =>
    mkPayout dist wp.1 wp.2

/-- tournamentEngine.js closeTournament, restricted to its payout
computation: fetch the top three entries, take the 2 percent house fee off
the pool, and create the payout rows.  With no participants no payouts are
created. -/
def closeTournamentPayouts (pool : Nat) (entries : List EntryRow) :
    List PayoutRow :=
  let winners := getTopThree entries
  if winners.length = 0 then []
  else payoutRows (distributablePool pool) winners

/-- Total satoshis across a list of payout rows. -/
def sumPayouts (l : List PayoutRow) : Nat :=
  (l.map (fun p => p.amountSats)).sum

/-! ## Anti-cheat gate
    From backend/src/routes/game.js (validateGameSession,
    analyzeInputPattern) and backend/src/config/constants.js (VALIDATION).
    Input events are modelled by their millisecond timestamp (the field `t`
    read by the source); rational arithmetic stands for the JS doubles. -/

/-- constants.js VALIDATION.maxScorePerSecond. -/
def maxScorePerSecond : ℚ := 50

/-- constants.js VALIDATION.maxScorePerLevel. -/
def maxScorePerLevel : ℚ := 1000

/-- constants.js VALIDATION.expectedFrameRate. -/
def expectedFrameRate : ℚ := 60

/-- constants.js VALIDATION.frameTolerance. -/
def frameTolerance : ℚ := 1 / 2

/-- constants.js VALIDATION.maxInputsPerSecond. -/
def maxInputsPerSecond : ℚ := 30

/-- The flags pushed onto the errors and warnings arrays of
validateGameSession, one constructor per distinct push site. -/
inductive CheatFlag
  | scoreRate
  | scorePerLevel
  | frame
  | superhuman
  | tooRegular
  | suspicious
deriving DecidableEq, Repr

/-- The sanitized inputs of POST /game/submit that reach the anti-cheat
gate: score, level, duration in ms, optional frame count, optional input
log given by event timestamps. -/
structure GameSubmission where
  score : Nat
  level : Nat
  duration : Nat
  frameCount : Option Nat
  inputLog : Option (List Nat)
deriving DecidableEq, Repr

/-- Result record of analyzeInputPattern. -/
structure InputAnalysis where
  superhuman : Bool
  tooRegular : Bool
  suspiciousPatterns : Bool
deriving DecidableEq, Repr

/-- The interval loop of analyzeInputPattern: differences of consecutive
timestamps, kept only when the later timestamp is strictly greater. -/
def intervalsOf : List Nat → List Nat
  | a :: b :: rest => (if a < b then [b - a] else []) ++ intervalsOf (b :: rest)
  | _ => []

/-- Math.min over a list, used on the (nonempty) interval list. -/
def listMin : List Nat → Nat
  | [] => 0
  | a :: rest => rest.foldl min a

/-- Arithmetic mean of a list of naturals, as a rational. -/
def listAvg (l : List Nat) : ℚ :=
  (l.map (fun n => (n : ℚ))).sum / (l.length : ℚ)

/-- Population variance of a list of naturals, as a rational. -/
def listVariance (l : List Nat) : ℚ :=
  (l.map (fun n => ((n : ℚ) - listAvg l) ^ 2)).sum / (l.length : ℚ)

/-- game.js analyzeInputPattern.  The JS computes stdDev = sqrt(variance)
and tests stdDev / avg < 0.05; since every kept interval is at least 1 the
average is positive, so that test is written here in the equivalent
square-free form 400 * variance < avg ^ 2. -/
def analyzeInputPattern (inputs : List Nat) (duration : Nat) : InputAnalysis :=
  if inputs.length < 10 then ⟨false, false, false⟩
  else
    let intervals := intervalsOf inputs
    if intervals.length < 5 then ⟨false, false, false⟩
    else
      let superhuman := decide (listMin intervals < 16)
      let tooRegular :=
        decide (400 * listVariance intervals < (listAvg intervals) ^ 2) &&
          decide (20 < intervals.length)
      let suspicious :=
        decide (maxInputsPerSecond <
          (inputs.length : ℚ) / ((duration : ℚ) / 1000))
      ⟨superhuman, tooRegular, suspicious⟩

/-- game.js: scorePerSecond = score / (duration / 1000). -/
def scorePerSecond (s : GameSubmission) : ℚ :=
  (s.score : ℚ) / ((s.duration : ℚ) / 1000)

/-- game.js: avgScorePerLevel = score / level. -/
def avgScorePerLevel (s : GameSubmission) : ℚ :=
  (s.score : ℚ) / (s.level : ℚ)

/-- game.js: expectedFrames = durationSec * expectedFrameRate. -/
def expectedFrames (s : GameSubmission) : ℚ :=
  ((s.duration : ℚ) / 1000) * expectedFrameRate

/-- game.js: frameDiff = abs(frameCount - expectedFrames) / expectedFrames. -/
def frameDiffOf (s : GameSubmission) (fc : Nat) : ℚ :=
  |(fc : ℚ) - expectedFrames s| / expectedFrames s

/-- The errors pushed by check 1 (score rate). -/
def scoreRateErrors (s : GameSubmission) : List CheatFlag :=
  if maxScorePerSecond < scorePerSecond s then [.scoreRate] else []

/-- The warnings pushed by check 1: only when the error branch was not
taken and the rate exceeds 80 percent of the bound. -/
def scoreRateWarnings (s : GameSubmission) : List CheatFlag :=
  if maxScorePerSecond < scorePerSecond s then []
  else if maxScorePerSecond * (4 / 5) < scorePerSecond s then [.scoreRate]
  else []

/-- The errors pushed by check 2 (score vs level). -/
def scorePerLevelErrors (s : GameSubmission) : List CheatFlag :=
  if maxScorePerLevel < avgScorePerLevel s then [.scorePerLevel] else []

/-- The warnings pushed by check 2. -/
def scorePerLevelWarnings (s : GameSubmission) : List CheatFlag :=
  if maxScorePerLevel < avgScorePerLevel s then []
  else if maxScorePerLevel * (4 / 5) < avgScorePerLevel s then [.scorePerLevel]
  else []

/-- The errors pushed by check 3 (frame count), absent when no frame count
was supplied. -/
def frameErrors (s : GameSubmission) : List CheatFlag :=
  match s.frameCount with
  | none => []
  | some fc => if frameTolerance < frameDiffOf s fc then [.frame] else []

/-- The warnings pushed by check 3. -/
def frameWarnings (s : GameSubmission) : List CheatFlag :=
  match s.frameCount with
  | none => []
  | some fc =>
      if frameTolerance < frameDiffOf s fc then []
      else if frameTolerance * (1 / 2) < frameDiffOf s fc then [.frame]
      else []

/-- The input analysis performed by check 4, run only when an input log is
present and nonempty. -/
def inputAnalysisOf (s : GameSubmission) : InputAnalysis :=
  match s.inputLog with
  | none => ⟨false, false, false⟩
  | some log =>
      if 0 < log.length then analyzeInputPattern log s.duration
      else ⟨false, false, false⟩

/-- The errors pushed by check 4. -/
def inputErrors (s : GameSubmission) : List CheatFlag :=
  if (inputAnalysisOf s).superhuman then [.superhuman] else []

/-- The warnings pushed by check 4, in source order: too-regular first,
then input rate. -/
def inputWarnings (s : GameSubmission) : List CheatFlag :=
  (if (inputAnalysisOf s).tooRegular then [.tooRegular] else []) ++
    (if (inputAnalysisOf s).suspiciousPatterns then [.suspicious] else [])

/-- Result record of validateGameSession (the reasons field carries the
errors array). -/
structure ValidationResult where
  valid : Bool
  reasons : List CheatFlag
  warnings : List CheatFlag
  confidence : Int
deriving DecidableEq, Repr

/-- game.js validateGameSession: the four checks in order, then
confidence = max(0, min(100, 100 - 30 * errors - 10 * warnings)) and
valid iff the errors array is empty. -/
def validateGameSession (s : GameSubmission) : ValidationResult :=
  let errors := scoreRateErrors s ++ scorePerLevelErrors s ++ frameErrors s
    ++ inputErrors s
  let warnings := scoreRateWarnings s ++ scorePerLevelWarnings s
    ++ frameWarnings s ++ inputWarnings s
  { valid := errors.length = 0
    reasons := errors
    warnings := warnings
    confidence :=
      max 0 (min 100 (100 - 30 * (errors.length : Int)
        - 10 * (warnings.length : Int))) }

/-- Modelled from the claim text, for comparison with the source: the
inter-event intervals of an input log, taken over ALL consecutive pairs of
timestamps (truncated subtraction; no filtering of non-increasing pairs). -/
def specInterEventIntervals : List Nat → List Nat
  | a :: b :: rest => (b - a) :: specInterEventIntervals (b :: rest)
  | _ => []

/-- The concrete submission falsifying the claim about the superhuman
check: ten input events sharing one timestamp. -/
def cheatEx : GameSubmission :=
  ⟨0, 1, 5000, none, some (List.replicate 10 0)⟩

/-! ## Tournament entry rows and the attempt and score state machine
    From database.js (entries.getOrCreateEntry, entries.incrementAttempt,
    entries.recordAttemptScore, entries.updateBestScore) and the call sites
    in backend/src/routes/game.js. -/

/-- A tournament_entries row restricted to the columns touched by the
attempt and score operations. -/
structure TEntry where
  attemptsUsed : Nat
  maxAttempts : Nat
  attempts : Nat
  bestScore : Nat
  attempt1 : Option Nat
  attempt2 : Option Nat
  attempt3 : Option Nat
deriving DecidableEq, Repr

/-- The row inserted by entries.getOrCreateEntry for a new
(tournament, user) pair: attempts_used 0, max_attempts 3, zero best score
and null attempt scores. -/
def freshEntry : TEntry :=
  { attemptsUsed := 0, maxAttempts := 3, attempts := 0, bestScore := 0,
    attempt1 := none, attempt2 := none, attempt3 := none }

/-- entries.incrementAttempt: atomic increment of attempts_used guarded by
attempts_used < max_attempts; nil when the guard fails. -/
def incrementAttempt (e : TEntry) : Option TEntry :=
  if e.attemptsUsed < e.maxAttempts then
    some { e with attemptsUsed := e.attemptsUsed + 1 }
  else none

/-- Write the k-th attempt column (k is 1, 2 or 3). -/
def setAttemptColumn (e : TEntry) (k score : Nat) : TEntry :=
  match k with
  | 1 => { e with attempt1 := some score }
  | 2 => { e with attempt2 := some score }
  | 3 => { e with attempt3 := some score }
  | _ => e

/-- entries.recordAttemptScore: rejects attempt numbers outside the
allowlist, otherwise writes column k, raises best_score to the maximum,
and bumps the attempts counter. -/
def recordAttemptScore (e : TEntry) (k score : Nat) : Option TEntry :=
  if k = 1 ∨ k = 2 ∨ k = 3 then
    some { setAttemptColumn e k score with
      bestScore := max e.bestScore score, attempts := e.attempts + 1 }
  else none

/-- entries.updateBestScore, the legacy submit path: raises best_score and
bumps attempts WITHOUT writing any attempt column. -/
def updateBestScore (e : TEntry) (score : Nat) : TEntry :=
  { e with bestScore := max e.bestScore score, attempts := e.attempts + 1 }

/-- Entry states reachable through the route-level operations: creation,
a successful incrementAttempt (start-attempt), a successful
recordAttemptScore (submit with attempt id), and updateBestScore (legacy
submit without attempt id).  Scores are bounded by sanitizeScore. -/
inductive EntryReachable : TEntry → Prop
  | fresh : EntryReachable freshEntry
  | increment {e e' : TEntry} : EntryReachable e →
      incrementAttempt e = some e' → EntryReachable e'
  | record {e e' : TEntry} {k score : Nat} : EntryReachable e →
      score ≤ 10000000 → recordAttemptScore e k score = some e' →
      EntryReachable e'
  | legacy {e : TEntry} {score : Nat} : EntryReachable e →
      score ≤ 10000000 → EntryReachable (updateBestScore e score)

/-- The claim quantity max(attempt_k_score where not null, else 0). -/
def maxAttemptScores (e : TEntry) : Nat :=
  max (e.attempt1.getD 0) (max (e.attempt2.getD 0) (e.attempt3.getD 0))

/-! ## Wallet ledger and the attempt-start and wallet-buy-in handlers
    From database.js (wallets.credit, wallets.debit), game.js
    (POST /game/start-attempt) and wallet.js (POST /wallet/buy-in).  The
    handlers below start after the tournament lookup succeeded with an open
    tournament; the attempt cost in sats is the price-oracle result passed
    in as a parameter. -/

/-- constants.js MAX_ATTEMPTS_PER_TOURNAMENT. -/
def MAX_ATTEMPTS_PER_TOURNAMENT : Nat := 3

/-- The closed set of transaction types of the journal. -/
inductive TxType
  | deposit
  | buy_in
  | payout
  | refund
deriving DecidableEq, Repr

/-- A transactions journal row. -/
structure Tx where
  userId : Nat
  type : TxType
  amountSats : Int
  description : String
  reference : Option String
deriving DecidableEq, Repr

/-- The wallet of the requesting user together with the journal rows
appended during the request. -/
structure WalletSt where
  balance : Nat
  txs : List Tx
deriving DecidableEq, Repr

/-- database.js wallets.credit: append a positive journal row, then add the
amount to the balance. -/
def creditWallet (w : WalletSt) (uid amt : Nat) (ty : TxType)
    (desc : String) : WalletSt :=
  { balance := w.balance + amt,
    txs := w.txs ++ [⟨uid, ty, (amt : Int), desc, none⟩] }

/-- database.js wallets.debit: fails when the balance is below the amount,
otherwise appends a negative journal row and subtracts. -/
def debitWallet (w : WalletSt) (uid amt : Nat) (ty : TxType)
    (desc : String) : Option WalletSt :=
  if w.balance < amt then none
  else
    some
      { balance := w.balance - amt,
        txs := w.txs ++ [⟨uid, ty, -(amt : Int), desc, none⟩] }

/-- Response bodies of POST /game/start-attempt. -/
inductive StartAttemptResp
  | maxAttemptsReached
  | insufficientBalance (required balance : Nat)
  | unexpectedError
  | failedStart
  | attemptStarted (attemptNumber attemptsRemaining newBalance : Nat)
deriving DecidableEq, Repr

/-- Outcome of one POST /game/start-attempt request. -/
structure StartAttemptOut where
  status : Nat
  resp : StartAttemptResp
  wallet : WalletSt
  prizePool : Nat
  entry : Option TEntry
deriving DecidableEq, Repr

/-- game.js POST /game/start-attempt after the entry upsert: cap check
against the constant 3, balance check, debit of type buy_in, guarded
incrementAttempt, and on nil an immediate compensating credit of type
refund with a 500 response.  eChk is the row loaded by getOrCreateEntry;
eInc is the row state when the guarded UPDATE runs, which may differ from
eChk under concurrent requests (that is the only way the nil branch can be
taken). -/
def startAttempt (uid cost : Nat) (eChk eInc : TEntry) (w : WalletSt)
    (pool : Nat) : StartAttemptOut :=
  if MAX_ATTEMPTS_PER_TOURNAMENT ≤ eChk.attemptsUsed then
    ⟨400, .maxAttemptsReached, w, pool, none⟩
  else if w.balance < cost then
    ⟨400, .insufficientBalance cost w.balance, w, pool, none⟩
  else
    match debitWallet w uid cost .buy_in
      ("Game attempt " ++ toString (eChk.attemptsUsed + 1)) with
    | none => ⟨500, .unexpectedError, w, pool, none⟩
    | some w1 =>
        match incrementAttempt eInc with
        | none =>
            ⟨500, .failedStart,
              creditWallet w1 uid cost .refund "Attempt start refund",
              pool, none⟩
        | some e' =>
            ⟨200,
              .attemptStarted e'.attemptsUsed
                (MAX_ATTEMPTS_PER_TOURNAMENT - e'.attemptsUsed) w1.balance,
              w1, pool + cost, some e'⟩

/-- Response bodies of POST /wallet/buy-in. -/
inductive WalletBuyInResp
  | alreadyEntered
  | insufficientBalance (required balance : Nat)
  | unexpectedError
  | failedCreateEntry
  | buyInOk (deducted : Nat)
deriving DecidableEq, Repr

/-- Outcome of one POST /wallet/buy-in request. -/
structure WalletBuyInOut where
  status : Nat
  resp : WalletBuyInResp
  wallet : WalletSt
  prizePool : Nat
deriving DecidableEq, Repr

/-- wallet.js POST /wallet/buy-in after the tournament lookup: duplicate
entry check, balance check, debit of type buy_in, entry creation, and on a
nil entry a compensating credit that the source writes with type buy_in
(description only says refund) and a 500 response.  hasEntry is the result
of the duplicate check; createFails tells whether entries.create returned
nil (a concurrent duplicate). -/
def walletBuyIn (uid buyInSats : Nat) (hasEntry createFails : Bool)
    (w : WalletSt) (pool : Nat) (date : String) : WalletBuyInOut :=
  if hasEntry then ⟨400, .alreadyEntered, w, pool⟩
  else if w.balance < buyInSats then
    ⟨400, .insufficientBalance buyInSats w.balance, w, pool⟩
  else
    match debitWallet w uid buyInSats .buy_in
      ("Tournament buy-in " ++ date) with
    | none => ⟨500, .unexpectedError, w, pool⟩
    | some w1 =>
        if createFails then
          ⟨500, .failedCreateEntry,
            creditWallet w1 uid buyInSats .buy_in
              "Buy-in refund - entry creation failed", pool⟩
        else ⟨200, .buyInOk buyInSats, w1, pool + buyInSats⟩

/-- A concrete entry whose attempt cap is already reached, used to drive
the incrementAttempt nil branch. -/
def cappedEntry : TEntry :=
  { freshEntry with attemptsUsed := 3 }

/-! ## Ephemeral cache
    From cacheStore.js (get, set, del, setIfNotExists).  The cache is an
    association list; cache-level TTL expiry is not modelled separately
    (the handlers below re-check expiry themselves with the same TTL). -/

/-- The values the payment pipeline stores in the cache. -/
inductive CacheVal
  | invoiceIntent (tournamentId userId amount : Nat)
  | depositIntent (userId amount createdAt : Nat)
  | flag (x : Nat)
  | hashRef (h : String)
deriving DecidableEq, Repr

/-- A cache entry: the stored value and the TTL in seconds it was stored
with. -/
structure CacheEntry where
  val : CacheVal
  ttl : Nat
deriving DecidableEq, Repr

/-- The cache state. -/
abbrev Cache := List (String × CacheEntry)

/-- cacheStore.js get: nil on miss. -/
def cacheGet (c : Cache) (k : String) : Option CacheVal :=
  (c.find? (fun p => p.1 == k)).map (fun p => p.2.val)

/-- cacheStore.js has. -/
def cacheHas (c : Cache) (k : String) : Bool :=
  c.any (fun p => p.1 == k)

/-- cacheStore.js set: overwrite with expiration. -/
def cacheSet (c : Cache) (k : String) (v : CacheVal) (ttl : Nat) : Cache :=
  (k, ⟨v, ttl⟩) :: c.filter (fun p => p.1 != k)

/-- cacheStore.js del: returns true exactly when the key existed at delete
time; this return value is the claim primitive of the payment pipeline. -/
def cacheDel (c : Cache) (k : String) : Bool × Cache :=
  (cacheHas c k, c.filter (fun p => p.1 != k))

/-- cacheStore.js setIfNotExists: atomic set-only-if-absent storing the
number 1, returning true exactly when newly created. -/
def cacheSetIfNotExists (c : Cache) (k : String) (ttl : Nat) : Bool × Cache :=
  if cacheHas c k then (false, c) else (true, cacheSet c k (.flag 1) ttl)

/-- Journal of the mutating cache operations a handler performed, so that
the arguments it passed (in particular TTLs) are observable. -/
inductive CacheOp
  | setOp (k : String) (ttl : Nat)
  | delOp (k : String)
  | setIfNotExistsOp (k : String) (ttl : Nat)
deriving DecidableEq, Repr

/-! ## Payment hash normalization and webhook signature verification
    From utils/paymentHash.js and routes/payments.js (the current version
    carried in the repository snapshot). -/

/-- constants.js WEBHOOK_IDEMPOTENCY_TTL_SECONDS: 3600 seconds (one hour);
note the stale comment at its use site in payments.js says 24 hours. -/
def WEBHOOK_IDEMPOTENCY_TTL_SECONDS : Nat := 3600

/-- constants.js INVOICE_TTL_SECONDS. -/
def INVOICE_TTL_SECONDS : Nat := 600

/-- wallet.js DEPOSIT_TTL, seconds. -/
def DEPOSIT_TTL : Nat := 600

/-- Lowercase hex digit test for the regex a-f0-9. -/
def isHexDigitLower (c : Char) : Bool :=
  (('a' ≤ c) && (c ≤ 'f')) || (('0' ≤ c) && (c ≤ '9'))

/-- Hex digit test for the case-insensitive regex a-f0-9 with flag i. -/
def isHexDigitAnyCase (c : Char) : Bool :=
  isHexDigitLower c || (('A' ≤ c) && (c ≤ 'F'))

/-- The deposit-status route test on the raw hash parameter. -/
def hexOk64 (s : String) : Bool :=
  (s.length == 64) && s.toList.all isHexDigitAnyCase

/-- JavaScript String.prototype.trim over a character list: strip leading
and trailing whitespace. -/
def trimChars (l : List Char) : List Char :=
  ((l.dropWhile Char.isWhitespace).reverse.dropWhile Char.isWhitespace).reverse

/-- utils/paymentHash.js normalizePaymentHash: toLowerCase, remove every
dash, trim, then require exactly 64 lowercase hex characters; nil
otherwise.  (Written over character lists; JS string methods are character
maps and filters for the ASCII inputs at hand.) -/
def normalizePaymentHash (hash : String) : Option String :=
  let normalized :=
    trimChars ((hash.toList.map Char.toLower).filter (fun c => c != '-'))
  if (normalized.length == 64) && normalized.all isHexDigitLower then
    some (String.mk normalized)
  else none

/-- Value of one hex character, for Buffer.from(s, hex). -/
def hexDigitVal (c : Char) : Option Nat :=
  if ('0' ≤ c) && (c ≤ '9') then some (c.toNat - '0'.toNat)
  else if ('a' ≤ c) && (c ≤ 'f') then some (c.toNat - 'a'.toNat + 10)
  else if ('A' ≤ c) && (c ≤ 'F') then some (c.toNat - 'A'.toNat + 10)
  else none

/-- Node Buffer.from(s, hex): decode pairs of hex characters into bytes,
truncating at the first character pair that is not valid hex. -/
def hexDecodeAux : List Char → List Nat
  | c1 :: c2 :: rest =>
      match hexDigitVal c1, hexDigitVal c2 with
      | some hi, some lo => (16 * hi + lo) :: hexDecodeAux rest
      | _, _ => []
  | _ => []

/-- Byte list of a hex string under Node Buffer.from semantics. -/
def hexDecode (s : String) : List Nat := hexDecodeAux s.toList

/-- A webhook request as the handler sees it: the raw body captured by the
body-parser verify callback, the JSON re-serialization fallback, the three
possible signature headers, and the parsed body fields payment_hash and
paid (paid models the truthiness of the field). -/
structure WebhookReq where
  rawBody : Option String
  bodyJson : String
  sigLnbits : Option String
  sigWebhook : Option String
  sigPlain : Option String
  paymentHash : Option String
  paid : Bool
deriving DecidableEq, Repr

/-- The JavaScript chain a or b or c over header values, where a missing
header and the empty string are both falsy. -/
def firstTruthy : List (Option String) → Option String
  | [] => none
  | a :: rest =>
      match a with
      | some s => if s = "" then firstTruthy rest else some s
      | none => firstTruthy rest

/-- The signature picked from the three accepted headers. -/
def headerSignature (req : WebhookReq) : Option String :=
  firstTruthy [req.sigLnbits, req.sigWebhook, req.sigPlain]

/-- payments.js verifyWebhookSignature, parameterized over the HMAC-SHA256
hex digest function (the cryptographic primitive is abstract; everything
else is concrete): reject when the secret is unset or empty, when no
signature header is truthy, when the hex-decoded buffers differ in length,
or when the timing-safe comparison of the decoded buffers fails.  The
payload is the raw body when captured, else the JSON re-serialization. -/
def verifyWebhookSignature (hmacHex : String → String → String)
    (webhookSecret : Option String) (req : WebhookReq) : Bool :=
  match webhookSecret with
  | none => false
  | some secret =>
      if secret = "" then false
      else
        match headerSignature req with
        | none => false
        | some signature =>
            let payload :=
              match req.rawBody with
              | some rb => rb
              | none => req.bodyJson
            let expected := hmacHex secret payload
            let sigBytes := hexDecode signature
            let expBytes := hexDecode expected
            if sigBytes.length ≠ expBytes.length then false
            else sigBytes == expBytes

/-! ## Persistent store and the webhook handler
    From database.js (entries.create, tournaments.updatePrizePool,
    wallets.credit) and the webhook route of payments.js. -/

/-- A tournament_entries row as the payment pipeline creates it. -/
structure DbEntry where
  tournamentId : Nat
  userId : Nat
  paymentHash : String
deriving DecidableEq, Repr

/-- The persistent tables the payment pipeline touches. -/
structure Db where
  entries : List DbEntry
  pools : List (Nat × Nat)
  wallets : List (Nat × Nat)
  txs : List Tx
deriving DecidableEq, Repr

/-- Balance of a wallet row, 0 when absent. -/
def walletBalance (db : Db) (uid : Nat) : Nat :=
  ((db.wallets.find? (fun p => p.1 == uid)).map (fun p => p.2)).getD 0

/-- wallets.credit upsert on the user_wallets table. -/
def bumpWallet : List (Nat × Nat) → Nat → Nat → List (Nat × Nat)
  | [], uid, amt => [(uid, amt)]
  | (u, b) :: rest, uid, amt =>
      if u = uid then (u, b + amt) :: rest
      else (u, b) :: bumpWallet rest uid amt

/-- database.js wallets.credit: append the journal row, then add to the
balance. -/
def dbCredit (db : Db) (uid amt : Nat) (ty : TxType) (desc : String)
    (ref : Option String) : Db :=
  { db with
    txs := db.txs ++ [⟨uid, ty, (amt : Int), desc, ref⟩],
    wallets := bumpWallet db.wallets uid amt }

/-- Whether an entry row exists for the (tournament, user) pair. -/
def entryExists (db : Db) (tid uid : Nat) : Bool :=
  db.entries.any (fun e => (e.tournamentId == tid) && (e.userId == uid))

/-- tournaments.updatePrizePool: atomic addition on the pool column. -/
def updatePrizePool : List (Nat × Nat) → Nat → Nat → List (Nat × Nat)
  | [], _, _ => []
  | (t, p) :: rest, tid, amt =>
      if t = tid then (t, p + amt) :: rest
      else (t, p) :: updatePrizePool rest tid amt

/-- The whole state the webhook and deposit-status handlers act on. -/
structure Sys where
  cache : Cache
  db : Db
deriving DecidableEq, Repr

/-- payments.js processPayment run in one store transaction: if the entry
already exists the payment is treated as processed; otherwise the entry is
created and the prize pool credited; afterwards the invoice intent is
deleted.  (In this sequential model entry creation cannot fail after the
existence check, so the nil-entry branch of the source is not reachable.) -/
def processPayment (hash : String) (tid uid amt : Nat) (st : Sys) :
    Bool × Sys × List CacheOp :=
  if entryExists st.db tid uid then
    (true, { st with cache := (cacheDel st.cache ("invoice:" ++ hash)).2 },
      [.delOp ("invoice:" ++ hash)])
  else
    let db1 :=
      { st.db with entries := st.db.entries ++ [(⟨tid, uid, hash⟩ : DbEntry)] }
    let db2 := { db1 with pools := updatePrizePool db1.pools tid amt }
    (true,
      ({ cache := (cacheDel st.cache ("invoice:" ++ hash)).2, db := db2 } :
        Sys),
      [.delOp ("invoice:" ++ hash)])

/-- Response bodies of POST /payments/webhook. -/
inductive WebhookResp
  | invalidSignature
  | received
  | receivedDuplicate
  | receivedUnknown
  | receivedAlreadyProcessed
  | receivedProcessed (success : Bool)
  | receivedDepositProcessed
deriving DecidableEq, Repr

/-- Outcome of one POST /payments/webhook request, with the journal of
mutating cache operations it performed. -/
structure WebhookOut where
  status : Nat
  resp : WebhookResp
  sys : Sys
  trace : List CacheOp
deriving DecidableEq, Repr

/-- The intent dispatch of the webhook handler, after the idempotency
check: look up a buy-in invoice intent first, then a deposit intent; on a
deposit, claim it by atomic delete, and only the winner of the delete
credits the wallet.  Intent keys are assumed to hold intent-shaped values
(the only values the system ever stores under them). -/
def webhookDispatch (h : String) (st : Sys) : WebhookOut :=
  match cacheGet st.cache ("invoice:" ++ h) with
  | some (.invoiceIntent tid uid amt) =>
      match processPayment h tid uid amt st with
      | (ok, st1, ops) => ⟨200, .receivedProcessed ok, st1, ops⟩
  | _ =>
      match cacheGet st.cache ("deposit:" ++ h) with
      | some (.depositIntent uid amt _) =>
          match cacheDel st.cache ("deposit:" ++ h) with
          | (deleted, c1) =>
              if deleted = false then
                ⟨200, .receivedAlreadyProcessed, { st with cache := c1 },
                  [.delOp ("deposit:" ++ h)]⟩
              else
                let c2 := (cacheDel c1 ("deposit:user:" ++ toString uid)).2
                let db1 := dbCredit st.db uid amt .deposit
                  "Lightning deposit" (some h)
                ⟨200, .receivedDepositProcessed, ⟨c2, db1⟩,
                  [.delOp ("deposit:" ++ h),
                    .delOp ("deposit:user:" ++ toString uid)]⟩
      | _ => ⟨200, .receivedUnknown, st, []⟩

/-- payments.js POST /payments/webhook: verify the signature or answer 401
with no state change; answer received for a falsy paid flag or falsy or
non-normalizable payment_hash; record the idempotency marker via
setIfNotExists with WEBHOOK_IDEMPOTENCY_TTL_SECONDS; on a duplicate whose
intents are all gone answer duplicate, otherwise fall through to the
dispatch (crashed-webhook retry). -/
def webhookPost (hmacHex : String → String → String)
    (secret : Option String) (req : WebhookReq) (st : Sys) : WebhookOut :=
  if verifyWebhookSignature hmacHex secret req = false then
    ⟨401, .invalidSignature, st, []⟩
  else
    let rawHashFalsy :=
      match req.paymentHash with
      | none => true
      | some s => s = ""
    if rawHashFalsy || !req.paid then ⟨200, .received, st, []⟩
    else
      match normalizePaymentHash ((req.paymentHash).getD "") with
      | none => ⟨200, .received, st, []⟩
      | some h =>
          match cacheSetIfNotExists st.cache ("webhook:" ++ h)
            WEBHOOK_IDEMPOTENCY_TTL_SECONDS with
          | (isNew, c1) =>
              let st1 : Sys := { st with cache := c1 }
              let tr := [CacheOp.setIfNotExistsOp ("webhook:" ++ h)
                WEBHOOK_IDEMPOTENCY_TTL_SECONDS]
              if isNew = false ∧ cacheGet c1 ("invoice:" ++ h) = none ∧
                  cacheGet c1 ("deposit:" ++ h) = none then
                ⟨200, .receivedDuplicate, st1, tr⟩
              else
                let d := webhookDispatch h st1
                ⟨d.status, d.resp, d.sys, tr ++ d.trace⟩

/-! ## Deposit status polling
    From wallet.js GET /wallet/deposit/status/:hash. -/

/-- Response bodies of GET /wallet/deposit/status/:hash. -/
inductive DepositStatusResp
  | invalidHash
  | invoiceNotFound
  | accessDenied
  | notPaidNotExpired
  | notPaidExpired
  | paidOk (amount : Nat)
  | paidAlreadyProcessed (amount : Nat)
deriving DecidableEq, Repr

/-- Outcome of one deposit-status request. -/
structure DepositStatusOut where
  status : Nat
  resp : DepositStatusResp
  sys : Sys
deriving DecidableEq, Repr

/-- wallet.js deposit status, the paid tail: atomically claim the intent by
cache delete; only when del returned true clean up the per-user reverse
index and credit the wallet with a deposit transaction referencing the
hash; a claimant whose delete returned false answers alreadyProcessed. -/
def depositClaimAndCredit (uid amt : Nat) (hash : String) (st : Sys) :
    DepositStatusOut :=
  match cacheDel st.cache ("deposit:" ++ hash) with
  | (deleted, c1) =>
      if deleted = false then
        ⟨200, .paidAlreadyProcessed amt, { st with cache := c1 }⟩
      else
        let c2 := (cacheDel c1 ("deposit:user:" ++ toString uid)).2
        ⟨200, .paidOk amt,
          ⟨c2, dbCredit st.db uid amt .deposit "Lightning deposit"
            (some hash)⟩⟩

/-- wallet.js GET /wallet/deposit/status/:hash for requesting user uid at
time now, where paidNow is what checkPayment reports: hash format check,
intent lookup, ownership check, expiry double-check against DEPOSIT_TTL,
then the claim-and-credit tail when paid. -/
def depositStatus (uid : Nat) (hash : String) (now : Nat) (paidNow : Bool)
    (st : Sys) : DepositStatusOut :=
  if hexOk64 hash = false then ⟨400, .invalidHash, st⟩
  else
    match cacheGet st.cache ("deposit:" ++ hash) with
    | some (.depositIntent duid amt createdAt) =>
        if duid ≠ uid then ⟨403, .accessDenied, st⟩
        else if DEPOSIT_TTL * 1000 < now - createdAt then
          ⟨200, .notPaidExpired,
            { st with cache := (cacheDel st.cache ("deposit:" ++ hash)).2 }⟩
        else if paidNow then depositClaimAndCredit uid amt hash st
        else ⟨200, .notPaidNotExpired, st⟩
    | _ => ⟨404, .invoiceNotFound, st⟩

/-- A sequence of deposit-status calls by the same user for the same hash,
each given by its time and the payment status checkPayment reports then. -/
def runPolls (uid : Nat) (hash : String) (calls : List (Nat × Bool))
    (st : Sys) : List DepositStatusResp × Sys :=
  match calls with
  | [] => ([], st)
  | (now, p) :: rest =>
      let out := depositStatus uid hash now p st
      let (rs, st1) := runPolls uid hash rest out.sys
      (out.resp :: rs, st1)

/-! ## Concrete fixtures for witnesses and counterexamples -/

/-- A 64-character lowercase hex string. -/
def hex64a : String := String.mk (List.replicate 64 'a')

/-- A constant stand-in for the HMAC-SHA256 hex digest in concrete runs. -/
def hmacFixed : String → String → String := fun _ _ => hex64a

/-- The empty persistent store. -/
def emptyDb : Db := ⟨[], [], [], []⟩

/-- The empty system state. -/
def sysEmpty : Sys := ⟨[], emptyDb⟩

/-- A webhook request with a valid fixed signature, a paid flag and a
normalizable payment hash. -/
def reqPaid : WebhookReq :=
  { rawBody := some "body", bodyJson := "body", sigLnbits := some hex64a,
    sigWebhook := none, sigPlain := none, paymentHash := some hex64a,
    paid := true }

/-- The same request with a falsy paid flag. -/
def reqUnpaid : WebhookReq := { reqPaid with paid := false }

/-- A system state holding one live deposit intent of 1000 sats for user 1
under the fixed hash. -/
def sysWithDeposit : Sys :=
  ⟨[("deposit:" ++ hex64a, ⟨.depositIntent 1 1000 0, DEPOSIT_TTL⟩)],
    emptyDb⟩

end BitBreaker

namespace BitBreaker

/-- Helper: the three floored shares of a distributable pool sum to at most
the pool. -/
theorem shares_sum_le (d : Nat) :
    d * 50 / 100 + d * 30 / 100 + d * 20 / 100 ≤ d := by
  omega

/-- Helper: the payout rows created from any winner list total at most the
distributable pool. -/
theorem sumPayouts_payoutRows_le (d : Nat) (l : List EntryRow) :
    sumPayouts (payoutRows d l) ≤ d := by
  match l with
  | [] => simp [payoutRows, sumPayouts]
  | [a] =>
      simp only [payoutRows, mkPayout, payoutAmount, sumPayouts,
        PRIZE_DISTRIBUTION, List.take, List.zip, List.zipWith, List.filterMap]
      split_ifs <;> simp [sumPayouts] <;> omega
  | [a, b] =>
      simp only [payoutRows, mkPayout, payoutAmount, sumPayouts,
        PRIZE_DISTRIBUTION, List.take, List.zip, List.zipWith, List.filterMap]
      split_ifs <;> simp [sumPayouts] <;> omega
  | a :: b :: c :: rest =>
      simp only [payoutRows, mkPayout, payoutAmount, sumPayouts,
        PRIZE_DISTRIBUTION, List.take, List.zip, List.zipWith, List.filterMap]
      split_ifs <;> simp [sumPayouts] <;> omega

/-- C1 (counterexample). The claim asserts that the payouts of a closed
tournament with at least one entry sum to at most floor(prize_pool * 0.98).
At prize_pool = 51 sats with three entries the engine computes houseFee =
floor(51 * 0.02) = 1, distributable = 50, and payouts 25 + 15 + 10 = 50,
while floor(51 * 0.98) = 49.  (Checked to agree with the IEEE-754 double
arithmetic of the JS source at this input.) -/
theorem closeTournament_payout_sum_exceeds_floor98 :
    ¬ sumPayouts
        (closeTournamentPayouts 51
          [⟨1, 30, "a@b.co"⟩, ⟨2, 20, "c@d.co"⟩, ⟨3, 10, "e@f.co"⟩]) ≤
      51 * 98 / 100 := by
  decide

/-- C1 (amended). For every tournament closed by closeTournament, the sum of
amount_sats over all payout rows is at most the distributable pool actually
computed by the engine, namely prize_pool - floor(prize_pool * 0.02) (which
equals ceil(prize_pool * 0.98) and can exceed floor(prize_pool * 0.98) by
one). -/
theorem closeTournament_payout_sum_le_distributable
    (pool : Nat) (entries : List EntryRow) :
    sumPayouts (closeTournamentPayouts pool entries) ≤
      pool - pool * 2 / 100 := by
  by_cases h : (getTopThree entries).length = 0
  · simp [closeTournamentPayouts, h, sumPayouts]
  · simpa [closeTournamentPayouts, h, distributablePool, houseFee] using
      sumPayouts_payoutRows_le (distributablePool pool) (getTopThree entries)

/-- C9. Winner selection at close uses getTopThree, which orders all entries
by best_score descending without excluding zero scores, while the public
leaderboard filters out entries with best_score = 0.  Part one: the
leaderboard never contains a zero-score entry.  Part two: closing a
100-sat-pool tournament whose only entry has best_score = 0 creates a payout
row of 49 sats for that user even though the leaderboard is empty. -/
theorem getTopThree_zero_score_wins_but_leaderboard_excludes :
    (∀ (entries : List EntryRow) (limit : Nat) (r : EntryRow),
        r ∈ getLeaderboard entries limit → 0 < r.bestScore) ∧
      closeTournamentPayouts 100 [⟨7, 0, "w@x.co"⟩] =
        [⟨7, 1, 49, "w@x.co"⟩] ∧
      getLeaderboard [⟨7, 0, "w@x.co"⟩] 100 = [] := by
  refine ⟨?_, by decide, by decide⟩
  intro entries limit r hr
  have h1 : r ∈ sortByScoreDesc (entries.filter (fun e => 0 < e.bestScore)) :=
    List.take_subset _ _ hr
  have h2 : r ∈ entries.filter (fun e => 0 < e.bestScore) :=
    ((entries.filter (fun e => 0 < e.bestScore)).perm_insertionSort
      (fun a b => b.bestScore ≤ a.bestScore)).subset h1
  have := List.of_mem_filter h2
  simpa using this

/-- Witness for C9: instantiating the leaderboard-positivity component at a
concrete singleton list. -/
theorem getTopThree_zero_score_witness :
    (⟨5, 4, "u@v.co"⟩ : EntryRow) ∈ getLeaderboard [⟨5, 4, "u@v.co"⟩] 10 ∧
      0 < (⟨5, 4, "u@v.co"⟩ : EntryRow).bestScore :=
  ⟨by decide,
    getTopThree_zero_score_wins_but_leaderboard_excludes.1
      [⟨5, 4, "u@v.co"⟩] 10 ⟨5, 4, "u@v.co"⟩ (by decide)⟩

/-- Helper: membership of a flag in the concatenated errors array of the
gate reduces to membership in the component lists. -/
theorem mem_reasons_iff (s : GameSubmission) (f : CheatFlag) :
    f ∈ (validateGameSession s).reasons ↔
      f ∈ scoreRateErrors s ∨ f ∈ scorePerLevelErrors s ∨
        f ∈ frameErrors s ∨ f ∈ inputErrors s := by
  simp [validateGameSession, List.mem_append, or_assoc]

/-- Helper: membership in the concatenated warnings array of the gate. -/
theorem mem_warnings_iff (s : GameSubmission) (f : CheatFlag) :
    f ∈ (validateGameSession s).warnings ↔
      f ∈ scoreRateWarnings s ∨ f ∈ scorePerLevelWarnings s ∨
        f ∈ frameWarnings s ∨ f ∈ inputWarnings s := by
  simp [validateGameSession, List.mem_append, or_assoc]

/-- Helper: the superhuman bit of the input analysis, characterized. -/
theorem inputAnalysis_superhuman (s : GameSubmission) (log : List Nat)
    (hlog : s.inputLog = some log) :
    (inputAnalysisOf s).superhuman = true ↔
      (10 ≤ log.length ∧ 5 ≤ (intervalsOf log).length ∧
        listMin (intervalsOf log) < 16) := by
  simp only [inputAnalysisOf, analyzeInputPattern, hlog]
  split_ifs with h1 h2 h3 <;> simp_all

/-- Helper: the too-regular bit of the input analysis, characterized. -/
theorem inputAnalysis_tooRegular (s : GameSubmission) (log : List Nat)
    (hlog : s.inputLog = some log) :
    (inputAnalysisOf s).tooRegular = true ↔
      (10 ≤ log.length ∧ 5 ≤ (intervalsOf log).length ∧
        400 * listVariance (intervalsOf log) <
          (listAvg (intervalsOf log)) ^ 2 ∧
        20 < (intervalsOf log).length) := by
  simp only [inputAnalysisOf, analyzeInputPattern, hlog]
  split_ifs with h1 h2 h3 <;> simp_all <;> omega

/-- Helper: the input-rate bit of the input analysis, characterized. -/
theorem inputAnalysis_suspicious (s : GameSubmission) (log : List Nat)
    (hlog : s.inputLog = some log) :
    (inputAnalysisOf s).suspiciousPatterns = true ↔
      (10 ≤ log.length ∧ 5 ≤ (intervalsOf log).length ∧
        maxInputsPerSecond < (log.length : ℚ) / ((s.duration : ℚ) / 1000)) := by
  simp only [inputAnalysisOf, analyzeInputPattern, hlog]
  split_ifs with h1 h2 h3 <;> simp_all <;> omega

/-- Helper: the superhuman flag appears among the errors exactly when the
log has at least ten events, at least five strictly increasing consecutive
intervals survive the filter, and the smallest surviving interval is below
16 ms. -/
theorem superhuman_mem_reasons (s : GameSubmission) (log : List Nat)
    (hlog : s.inputLog = some log) :
    CheatFlag.superhuman ∈ (validateGameSession s).reasons ↔
      (10 ≤ log.length ∧ 5 ≤ (intervalsOf log).length ∧
        listMin (intervalsOf log) < 16) := by
  rw [mem_reasons_iff, ← inputAnalysis_superhuman s log hlog]
  unfold scoreRateErrors scorePerLevelErrors frameErrors inputErrors
  cases hfc : s.frameCount <;> split_ifs <;> simp_all

/-- Helper: the too-regular warning, characterized. -/
theorem tooRegular_mem_warnings (s : GameSubmission) (log : List Nat)
    (hlog : s.inputLog = some log) :
    CheatFlag.tooRegular ∈ (validateGameSession s).warnings ↔
      (10 ≤ log.length ∧ 5 ≤ (intervalsOf log).length ∧
        400 * listVariance (intervalsOf log) <
          (listAvg (intervalsOf log)) ^ 2 ∧
        20 < (intervalsOf log).length) := by
  rw [mem_warnings_iff, ← inputAnalysis_tooRegular s log hlog]
  unfold scoreRateWarnings scorePerLevelWarnings frameWarnings inputWarnings
  cases hfc : s.frameCount <;> split_ifs <;> simp_all

/-- Helper: the input-rate warning, characterized. -/
theorem suspicious_mem_warnings (s : GameSubmission) (log : List Nat)
    (hlog : s.inputLog = some log) :
    CheatFlag.suspicious ∈ (validateGameSession s).warnings ↔
      (10 ≤ log.length ∧ 5 ≤ (intervalsOf log).length ∧
        maxInputsPerSecond < (log.length : ℚ) / ((s.duration : ℚ) / 1000)) := by
  rw [mem_warnings_iff, ← inputAnalysis_suspicious s log hlog]
  unfold scoreRateWarnings scorePerLevelWarnings frameWarnings inputWarnings
  cases hfc : s.frameCount <;> split_ifs <;> simp_all

/-- Helper: the score-rate flag appears among the errors exactly when the
rate exceeds the bound. -/
theorem scoreRate_mem_reasons (s : GameSubmission) :
    CheatFlag.scoreRate ∈ (validateGameSession s).reasons ↔
      maxScorePerSecond < scorePerSecond s := by
  rw [mem_reasons_iff]
  unfold scoreRateErrors scorePerLevelErrors frameErrors inputErrors
  cases hfc : s.frameCount <;> split_ifs <;> simp_all

/-- Helper: the score-per-level flag appears among the errors exactly when
the ratio exceeds the bound. -/
theorem scorePerLevel_mem_reasons (s : GameSubmission) :
    CheatFlag.scorePerLevel ∈ (validateGameSession s).reasons ↔
      maxScorePerLevel < avgScorePerLevel s := by
  rw [mem_reasons_iff]
  unfold scoreRateErrors scorePerLevelErrors frameErrors inputErrors
  cases hfc : s.frameCount <;> split_ifs <;> simp_all

/-- Helper: the score-rate warning appears exactly when the rate is within
the bound but above 80 percent of it. -/
theorem scoreRate_mem_warnings (s : GameSubmission) :
    CheatFlag.scoreRate ∈ (validateGameSession s).warnings ↔
      (scorePerSecond s ≤ maxScorePerSecond ∧
        maxScorePerSecond * (4 / 5) < scorePerSecond s) := by
  rw [mem_warnings_iff]
  unfold scoreRateWarnings scorePerLevelWarnings frameWarnings inputWarnings
  cases hfc : s.frameCount <;> split_ifs <;> simp_all [not_lt]

/-- Helper: the score-per-level warning appears exactly when the ratio is
within the bound but above 80 percent of it. -/
theorem scorePerLevel_mem_warnings (s : GameSubmission) :
    CheatFlag.scorePerLevel ∈ (validateGameSession s).warnings ↔
      (avgScorePerLevel s ≤ maxScorePerLevel ∧
        maxScorePerLevel * (4 / 5) < avgScorePerLevel s) := by
  rw [mem_warnings_iff]
  unfold scoreRateWarnings scorePerLevelWarnings frameWarnings inputWarnings
  cases hfc : s.frameCount <;> split_ifs <;> simp_all [not_lt]

/-- C7 (counterexample).  The claim asserts that whenever the input log has
at least ten entries the gate emits an error if the minimum inter-event
interval is below 16 ms.  For ten events sharing one timestamp every
inter-event interval is 0 ms, yet the source filters out non-increasing
consecutive pairs, finds fewer than five surviving intervals, and emits no
error: the submission is accepted as valid. -/
theorem validateGameSession_superhuman_counterexample :
    (cheatEx.inputLog.getD []).length = 10 ∧
      listMin (specInterEventIntervals (cheatEx.inputLog.getD [])) < 16 ∧
      (validateGameSession cheatEx).reasons = [] ∧
      (validateGameSession cheatEx).valid = true := by
  refine ⟨by decide, by decide, ?_, ?_⟩ <;>
    simp [validateGameSession, cheatEx, scoreRateErrors, scorePerLevelErrors,
      frameErrors, inputErrors, inputAnalysisOf, analyzeInputPattern,
      scorePerSecond, avgScorePerLevel, maxScorePerSecond, maxScorePerLevel,
      intervalsOf, scoreRateWarnings, scorePerLevelWarnings, frameWarnings,
      inputWarnings]

/-- C7 (amended).  The anti-cheat gate is a pure function of score, level,
duration, optional frame count and optional input log; it is valid exactly
when its error list is empty; confidence is the clamped linear formula; the
score-rate and score-per-level checks are tiered exactly as claimed; and
for a supplied input log the superhuman error requires at least ten events
AND at least five strictly increasing consecutive intervals, firing when
the minimum surviving interval is below 16 ms, while the too-regular and
input-rate warnings fire under the same gating with coefficient of
variation below 0.05 over more than 20 intervals, respectively a mean rate
above 30 events per second. -/
theorem validateGameSession_spec :
    (∀ s : GameSubmission,
      ((validateGameSession s).valid = true ↔
        (validateGameSession s).reasons = []) ∧
      (validateGameSession s).confidence =
        max 0 (min 100
          (100 - 30 * ((validateGameSession s).reasons.length : Int)
            - 10 * ((validateGameSession s).warnings.length : Int))) ∧
      (CheatFlag.scoreRate ∈ (validateGameSession s).reasons ↔
        maxScorePerSecond < scorePerSecond s) ∧
      (CheatFlag.scoreRate ∈ (validateGameSession s).warnings ↔
        (scorePerSecond s ≤ maxScorePerSecond ∧
          maxScorePerSecond * (4 / 5) < scorePerSecond s)) ∧
      (CheatFlag.scorePerLevel ∈ (validateGameSession s).reasons ↔
        maxScorePerLevel < avgScorePerLevel s) ∧
      (CheatFlag.scorePerLevel ∈ (validateGameSession s).warnings ↔
        (avgScorePerLevel s ≤ maxScorePerLevel ∧
          maxScorePerLevel * (4 / 5) < avgScorePerLevel s))) ∧
    (∀ (s : GameSubmission) (log : List Nat), s.inputLog = some log →
      (CheatFlag.superhuman ∈ (validateGameSession s).reasons ↔
        (10 ≤ log.length ∧ 5 ≤ (intervalsOf log).length ∧
          listMin (intervalsOf log) < 16)) ∧
      (CheatFlag.tooRegular ∈ (validateGameSession s).warnings ↔
        (10 ≤ log.length ∧ 5 ≤ (intervalsOf log).length ∧
          400 * listVariance (intervalsOf log) <
            (listAvg (intervalsOf log)) ^ 2 ∧
          20 < (intervalsOf log).length)) ∧
      (CheatFlag.suspicious ∈ (validateGameSession s).warnings ↔
        (10 ≤ log.length ∧ 5 ≤ (intervalsOf log).length ∧
          maxInputsPerSecond <
            (log.length : ℚ) / ((s.duration : ℚ) / 1000)))) := by
  constructor
  · intro s
    exact ⟨by simp [validateGameSession], rfl, scoreRate_mem_reasons s,
      scoreRate_mem_warnings s, scorePerLevel_mem_reasons s,
      scorePerLevel_mem_warnings s⟩
  · intro s log hlog
    exact ⟨superhuman_mem_reasons s log hlog,
      tooRegular_mem_warnings s log hlog,
      suspicious_mem_warnings s log hlog⟩

/-- Witness for C7: the amended characterization applied to a concrete
submission with an 11-event log at 20 ms spacing. -/
theorem validateGameSession_spec_witness :
    CheatFlag.superhuman ∉
      (validateGameSession
        ⟨100, 1, 10000, none,
          some [0, 20, 40, 60, 80, 100, 120, 140, 160, 180, 200]⟩).reasons := by
  rw [validateGameSession_spec.2
    ⟨100, 1, 10000, none,
      some [0, 20, 40, 60, 80, 100, 120, 140, 160, 180, 200]⟩
    [0, 20, 40, 60, 80, 100, 120, 140, 160, 180, 200] rfl |>.1]
  decide

/-- C5 (counterexample).  The claim asserts that every reachable entry has
best_score equal to the maximum of its non-null attempt columns, in
particular after submissions made without an attempt id.  One legacy
submission of score 5 on a fresh entry is reachable, sets best_score to 5,
and leaves every attempt column null, so the maximum of the non-null
columns is 0. -/
theorem entry_invariant_counterexample :
    EntryReachable (updateBestScore freshEntry 5) ∧
      (updateBestScore freshEntry 5).bestScore ≠
        maxAttemptScores (updateBestScore freshEntry 5) :=
  ⟨EntryReachable.legacy EntryReachable.fresh (by decide), by decide⟩

/-- C5 (amended).  In every reachable entry state, attempts_used is at most
max_attempts (it is a natural number, hence also at least 0), and
best_score is at LEAST the maximum of the non-null attempt columns;
equality can fail because the legacy no-attempt-id submission path raises
best_score without writing any attempt column. -/
theorem entry_invariant (e : TEntry) (he : EntryReachable e) :
    e.attemptsUsed ≤ e.maxAttempts ∧ maxAttemptScores e ≤ e.bestScore := by
  induction he with
  | fresh => decide
  | increment he hinc ih =>
      rename_i e e'
      unfold incrementAttempt at hinc
      split_ifs at hinc with h
      · cases hinc
        exact ⟨h, ih.2⟩
  | record he hs hrec ih =>
      rename_i e e' k score
      unfold recordAttemptScore at hrec
      split_ifs at hrec with h
      · cases hrec
        rcases h with h | h | h <;> subst h <;>
          simp_all [setAttemptColumn, maxAttemptScores] <;> try omega
  | legacy he hs ih =>
      rename_i e score
      exact ⟨ih.1, by simp_all [updateBestScore, maxAttemptScores]; try omega⟩

/-- Witness for C5: the amended invariant at the fresh entry. -/
theorem entry_invariant_witness :
    freshEntry.attemptsUsed ≤ freshEntry.maxAttempts ∧
      maxAttemptScores freshEntry ≤ freshEntry.bestScore :=
  entry_invariant freshEntry EntryReachable.fresh

/-- C6.  In the start-attempt handler, whenever incrementAttempt returns
nil after the wallet was debited (the cap passed on the loaded row but the
guarded update hit a concurrently exhausted row), the handler credits the
same cost back as a transaction of type refund and responds 500; the net
balance change of the request is zero and the prize pool is untouched. -/
theorem startAttempt_increment_nil_refunds (uid cost : Nat)
    (eChk eInc : TEntry) (w : WalletSt) (pool : Nat)
    (hcap : eChk.attemptsUsed < MAX_ATTEMPTS_PER_TOURNAMENT)
    (hbal : cost ≤ w.balance)
    (hinc : incrementAttempt eInc = none) :
    (startAttempt uid cost eChk eInc w pool).status = 500 ∧
      (startAttempt uid cost eChk eInc w pool).wallet.balance = w.balance ∧
      (startAttempt uid cost eChk eInc w pool).wallet.txs =
        w.txs ++
          [⟨uid, .buy_in, -(cost : Int),
              "Game attempt " ++ toString (eChk.attemptsUsed + 1), none⟩,
            ⟨uid, .refund, (cost : Int), "Attempt start refund", none⟩] ∧
      (startAttempt uid cost eChk eInc w pool).prizePool = pool := by
  have h1 : ¬ MAX_ATTEMPTS_PER_TOURNAMENT ≤ eChk.attemptsUsed := by omega
  have h2 : ¬ w.balance < cost := by omega
  simp only [startAttempt, debitWallet, hinc, if_neg h1, if_neg h2]
  refine ⟨by simp, ?_, ?_, by simp⟩
  · simp [creditWallet]
    omega
  · simp [creditWallet]

/-- Witness for C6: a concrete run against an already-capped row. -/
theorem startAttempt_increment_nil_refunds_witness :
    (startAttempt 1 10 freshEntry cappedEntry ⟨50, []⟩ 7).status = 500 ∧
      (startAttempt 1 10 freshEntry cappedEntry ⟨50, []⟩ 7).wallet.balance =
        50 := by
  have h := startAttempt_increment_nil_refunds 1 10 freshEntry cappedEntry
    ⟨50, []⟩ 7 (by decide) (by decide) (by decide)
  exact ⟨h.1, h.2.1⟩

/-- C8 (counterexample).  The claim asserts that both compensating credits
are journaled with type refund.  A concrete wallet buy-in whose entry
creation fails journals its compensating credit with type buy_in. -/
theorem buyIn_compensation_type_counterexample :
    ((walletBuyIn 1 10 false true ⟨50, []⟩ 0 "2025-01-01").wallet.txs.getLast?).map
        Tx.type = some TxType.buy_in ∧
      TxType.buy_in ≠ TxType.refund := by
  decide

/-- C8 (amended).  The attempt-start compensation is journaled as a
transaction of type refund with positive amount; the buy-in compensation
is journaled with positive amount but with type buy_in (only its
description calls it a refund). -/
theorem compensation_credit_journaling :
    (∀ (uid cost : Nat) (eChk eInc : TEntry) (w : WalletSt) (pool : Nat),
      eChk.attemptsUsed < MAX_ATTEMPTS_PER_TOURNAMENT → cost ≤ w.balance →
      0 < cost → incrementAttempt eInc = none →
      (startAttempt uid cost eChk eInc w pool).wallet.txs.getLast? =
        some ⟨uid, .refund, (cost : Int), "Attempt start refund", none⟩ ∧
        (0 : Int) < (cost : Int)) ∧
    (∀ (uid buyInSats : Nat) (w : WalletSt) (pool : Nat) (date : String),
      buyInSats ≤ w.balance → 0 < buyInSats →
      (walletBuyIn uid buyInSats false true w pool date).wallet.txs.getLast? =
        some ⟨uid, .buy_in, (buyInSats : Int),
          "Buy-in refund - entry creation failed", none⟩ ∧
        (0 : Int) < (buyInSats : Int)) := by
  constructor
  · intro uid cost eChk eInc w pool hcap hbal hpos hinc
    refine ⟨?_, by exact_mod_cast hpos⟩
    have h1 : ¬ MAX_ATTEMPTS_PER_TOURNAMENT ≤ eChk.attemptsUsed := by omega
    have h2 : ¬ w.balance < cost := by omega
    simp only [startAttempt, debitWallet, hinc, if_neg h1, if_neg h2]
    simp [creditWallet]
  · intro uid buyInSats w pool date hbal hpos
    refine ⟨?_, by exact_mod_cast hpos⟩
    have h2 : ¬ w.balance < buyInSats := by omega
    simp only [walletBuyIn, debitWallet, if_neg h2]
    simp [creditWallet]

/-- Witness for C8: both compensation shapes at concrete inputs. -/
theorem compensation_credit_journaling_witness :
    (startAttempt 2 5 freshEntry cappedEntry ⟨9, []⟩ 0).wallet.txs.getLast? =
        some ⟨2, .refund, (5 : Int), "Attempt start refund", none⟩ ∧
      (walletBuyIn 2 5 false true ⟨9, []⟩ 0 "2025-01-02").wallet.txs.getLast? =
        some ⟨2, .buy_in, (5 : Int), "Buy-in refund - entry creation failed",
          none⟩ :=
  ⟨(compensation_credit_journaling.1 2 5 freshEntry cappedEntry ⟨9, []⟩ 0
      (by decide) (by decide) (by decide) (by decide)).1,
    (compensation_credit_journaling.2 2 5 ⟨9, []⟩ 0 "2025-01-02"
      (by decide) (by decide)).1⟩

/-- C2.  Every webhook request that fails signature verification - absent
or empty configured secret, no truthy signature header, or hex-decoded
signature bytes that differ (in length or content, the comparison the
source performs timing-safely) from the HMAC-SHA256 digest of the raw body
under the secret - is answered 401 with error Invalid signature, and
neither the cache nor the persistent store changes (the returned state is
the input state and no mutating cache operation is journaled). -/
theorem webhook_rejects_invalid_signature
    (hmacHex : String → String → String) (secret : Option String)
    (req : WebhookReq) (st : Sys) (rb : String)
    (hraw : req.rawBody = some rb)
    (hcond : secret = none ∨ secret = some "" ∨ headerSignature req = none ∨
      (∀ s sig, secret = some s → headerSignature req = some sig →
        hexDecode sig ≠ hexDecode (hmacHex s rb))) :
    webhookPost hmacHex secret req st =
      ⟨401, .invalidSignature, st, []⟩ := by
  have hver : verifyWebhookSignature hmacHex secret req = false := by
    unfold verifyWebhookSignature
    rcases hcond with h | h | h | h
    · rw [h]
    · rw [h]
      simp
    · cases hsec : secret with
      | none => rfl
      | some s =>
          rw [h]
          by_cases hs : s = "" <;> simp [hs]
    · cases hsec : secret with
      | none => rfl
      | some s =>
          cases hsig : headerSignature req with
          | none => by_cases hs : s = "" <;> simp [hs]
          | some sig =>
              have hne := h s sig hsec hsig
              by_cases hs : s = "" <;> simp [hs, hraw]
              by_cases hlen :
                (hexDecode sig).length = (hexDecode (hmacHex s rb)).length
              · simp [hlen, beq_iff_eq, hne]
              · simp [hlen]
  simp [webhookPost, hver]

/-- Witness for C2: an unset secret at a concrete request and state. -/
theorem webhook_rejects_invalid_signature_witness :
    webhookPost hmacFixed none reqPaid sysEmpty =
      ⟨401, .invalidSignature, sysEmpty, []⟩ :=
  webhook_rejects_invalid_signature hmacFixed none reqPaid sysEmpty "body"
    rfl (Or.inl rfl)

/-- Helper: the empty string does not normalize to a payment hash. -/
theorem normalize_empty : normalizePaymentHash "" = none := by decide

/-- C3 (counterexample).  The claim asserts the idempotency marker is
recorded with a time-to-live of 24 hours.  On a concrete verified, paid
webhook the only setIfNotExists call in the trace carries TTL 3600 seconds
(one hour, the value of WEBHOOK_IDEMPOTENCY_TTL_SECONDS in constants.js);
no call with TTL 86400 occurs. -/
theorem webhook_marker_ttl_counterexample :
    (webhookPost hmacFixed (some "s") reqPaid sysEmpty).trace =
      [.setIfNotExistsOp ("webhook:" ++ hex64a) 3600] ∧
      CacheOp.setIfNotExistsOp ("webhook:" ++ hex64a) 86400 ∉
        (webhookPost hmacFixed (some "s") reqPaid sysEmpty).trace := by
  decide

/-- C3 (amended).  Every webhook request that passes signature verification
and carries a truthy paid flag with a normalizable payment_hash records the
idempotency marker first, by calling setIfNotExists on key webhook:<hash>
with WEBHOOK_IDEMPOTENCY_TTL_SECONDS = 3600 seconds (one hour, not the 24
hours the claim and a stale source comment state). -/
theorem webhook_records_idempotency_marker
    (hmacHex : String → String → String) (secret : Option String)
    (req : WebhookReq) (st : Sys) (raw h : String)
    (hver : verifyWebhookSignature hmacHex secret req = true)
    (hpaid : req.paid = true)
    (hhash : req.paymentHash = some raw)
    (hnorm : normalizePaymentHash raw = some h) :
    (webhookPost hmacHex secret req st).trace.head? =
      some (.setIfNotExistsOp ("webhook:" ++ h)
        WEBHOOK_IDEMPOTENCY_TTL_SECONDS) ∧
      WEBHOOK_IDEMPOTENCY_TTL_SECONDS = 3600 := by
  refine ⟨?_, rfl⟩
  have hraw : raw ≠ "" := by
    intro he
    rw [he, normalize_empty] at hnorm
    cases hnorm
  simp only [webhookPost, hver, hhash, hpaid, Option.getD_some, hnorm]
  simp only [Bool.true_eq_false, if_false]
  simp [hraw]
  split <;> simp

/-- Witness for C3: the marker call at a concrete verified paid request. -/
theorem webhook_records_idempotency_marker_witness :
    (webhookPost hmacFixed (some "s") reqPaid sysEmpty).trace.head? =
      some (.setIfNotExistsOp ("webhook:" ++ hex64a) 3600) :=
  (webhook_records_idempotency_marker hmacFixed (some "s") reqPaid sysEmpty
    hex64a hex64a (by decide) rfl rfl (by decide)).1

/-- C10.  A webhook request that passes signature verification but whose
body has a falsy paid flag, lacks a payment_hash (or carries an empty
one), or whose payment_hash does not normalize to 64 lowercase hex
characters, is answered 200 received, with the state returned unchanged
and no mutating cache operation journaled. -/
theorem webhook_nonactionable_body_noop
    (hmacHex : String → String → String) (secret : Option String)
    (req : WebhookReq) (st : Sys)
    (hver : verifyWebhookSignature hmacHex secret req = true)
    (hcond : req.paid = false ∨ req.paymentHash = none ∨
      req.paymentHash = some "" ∨
      (∀ raw, req.paymentHash = some raw → normalizePaymentHash raw = none)) :
    webhookPost hmacHex secret req st = ⟨200, .received, st, []⟩ := by
  unfold webhookPost
  simp only [hver, Bool.true_eq_false, if_false]
  rcases hcond with h | h | h | h
  · cases hh : req.paymentHash with
    | none => simp [h]
    | some raw => by_cases hr : raw = "" <;> simp [h, hr]
  · simp [h]
  · simp [h]
  · cases hh : req.paymentHash with
    | none => simp
    | some raw =>
        by_cases hr : raw = ""
        · simp [hh, hr]
        · have hn := h raw hh
          by_cases hp : req.paid <;> simp [hh, hr, hn, hp]

/-- Witness for C10: a verified request with a falsy paid flag. -/
theorem webhook_nonactionable_body_noop_witness :
    webhookPost hmacFixed (some "s") reqUnpaid sysEmpty =
      ⟨200, .received, sysEmpty, []⟩ :=
  webhook_nonactionable_body_noop hmacFixed (some "s") reqUnpaid sysEmpty
    (by decide) (Or.inl rfl)

/-- Helper: a successful cacheGet implies the key exists. -/
theorem cacheHas_of_get (c : Cache) (k : String) (v : CacheVal)
    (h : cacheGet c k = some v) : cacheHas c k = true := by
  unfold cacheGet at h
  unfold cacheHas
  cases hf : c.find? (fun p => p.1 == k) with
  | none => rw [hf] at h; cases h
  | some p =>
      have hmem := List.mem_of_find?_eq_some hf
      have hpred := List.find?_some hf
      exact List.any_eq_true.mpr ⟨p, hmem, hpred⟩

/-- Helper: after deleting a key it can no longer be read. -/
theorem cacheGet_after_del (c : Cache) (k : String) :
    cacheGet (cacheDel c k).2 k = none := by
  unfold cacheGet cacheDel
  rw [List.find?_eq_none.mpr]
  · rfl
  · intro x hx
    have hne := List.of_mem_filter hx
    simp only [bne_iff_ne, ne_eq] at hne
    simp [hne]

/-- Helper: deleting some other key keeps an absent key absent. -/
theorem cacheGet_del_preserve_none (c : Cache) (k k2 : String)
    (h : cacheGet c k = none) : cacheGet (cacheDel c k2).2 k = none := by
  unfold cacheGet cacheDel at *
  cases hf : c.find? (fun p => p.1 == k) with
  | some p => rw [hf] at h; cases h
  | none =>
      rw [List.find?_eq_none.mpr]
      · rfl
      · intro x hx
        exact List.find?_eq_none.mp hf x (List.mem_of_mem_filter hx)

/-- Helper: the wallet upsert adds exactly the credited amount for the
credited user. -/
theorem walletBalance_bumpWallet (w : List (Nat × Nat)) (uid amt : Nat) :
    (((bumpWallet w uid amt).find? (fun p => p.1 == uid)).map
      (fun p => p.2)).getD 0 =
    ((w.find? (fun p => p.1 == uid)).map (fun p => p.2)).getD 0 + amt := by
  induction w with
  | nil => simp [bumpWallet]
  | cons p rest ih =>
      cases p with
      | mk u b =>
          by_cases hu : u = uid
          · subst hu
            simp [bumpWallet, List.find?]
          · simp [bumpWallet, hu, List.find?]
            rw [show ((u == uid) = false) from by simp [hu]]
            simp [ih]

/-- Helper: an unpaid in-window poll answers notPaid and changes nothing. -/
theorem depositStatus_notPaid (uid amt createdAt : Nat) (hash : String)
    (now : Nat) (st : Sys)
    (hhex : hexOk64 hash = true)
    (hget : cacheGet st.cache ("deposit:" ++ hash) =
      some (.depositIntent uid amt createdAt))
    (hlive : now - createdAt ≤ DEPOSIT_TTL * 1000) :
    depositStatus uid hash now false st = ⟨200, .notPaidNotExpired, st⟩ := by
  unfold depositStatus
  rw [hget]
  simp [hhex, Nat.not_lt.mpr hlive]

/-- Helper: the first paid poll wins the delete and performs the credit. -/
theorem depositStatus_first_paid (uid amt createdAt now : Nat)
    (hash : String) (st : Sys)
    (hhex : hexOk64 hash = true)
    (hget : cacheGet st.cache ("deposit:" ++ hash) =
      some (.depositIntent uid amt createdAt))
    (hlive : now - createdAt ≤ DEPOSIT_TTL * 1000) :
    depositStatus uid hash now true st =
      ⟨200, .paidOk amt,
        ⟨(cacheDel (cacheDel st.cache ("deposit:" ++ hash)).2
            ("deposit:user:" ++ toString uid)).2,
          dbCredit st.db uid amt .deposit "Lightning deposit" (some hash)⟩⟩ := by
  unfold depositStatus depositClaimAndCredit
  rw [hget]
  have hdel := cacheHas_of_get st.cache ("deposit:" ++ hash) _ hget
  simp [hhex, Nat.not_lt.mpr hlive, cacheDel, hdel]

/-- Helper: once the intent is gone every poll answers 404 and changes
nothing. -/
theorem depositStatus_no_intent (uid : Nat) (hash : String) (now : Nat)
    (p : Bool) (st : Sys)
    (hhex : hexOk64 hash = true)
    (hget : cacheGet st.cache ("deposit:" ++ hash) = none) :
    depositStatus uid hash now p st = ⟨404, .invoiceNotFound, st⟩ := by
  unfold depositStatus
  rw [hget]
  simp [hhex]

/-- Helper: a claimant whose atomic delete loses answers alreadyProcessed
without touching the store. -/
theorem depositClaimAndCredit_loser (uid amt : Nat) (hash : String)
    (st : Sys)
    (h : cacheHas st.cache ("deposit:" ++ hash) = false) :
    (depositClaimAndCredit uid amt hash st).resp =
        .paidAlreadyProcessed amt ∧
      (depositClaimAndCredit uid amt hash st).sys.db = st.db := by
  unfold depositClaimAndCredit cacheDel
  simp [h]

/-- Helper: a run of unpaid in-window polls is the identity on state. -/
theorem runPolls_unpaid (uid amt createdAt : Nat) (hash : String)
    (nows : List Nat) (st : Sys)
    (hhex : hexOk64 hash = true)
    (hget : cacheGet st.cache ("deposit:" ++ hash) =
      some (.depositIntent uid amt createdAt))
    (hlive : ∀ n ∈ nows, n - createdAt ≤ DEPOSIT_TTL * 1000) :
    runPolls uid hash (nows.map (fun n => (n, false))) st =
      (nows.map (fun _ => .notPaidNotExpired), st) := by
  induction nows with
  | nil => rfl
  | cons n rest ih =>
      have h1 := depositStatus_notPaid uid amt createdAt hash n st hhex hget
        (hlive n (by simp))
      simp only [List.map, runPolls, h1]
      rw [ih (fun m hm => hlive m (by simp [hm]))]

/-- Helper: after processing, any further polls all answer 404. -/
theorem runPolls_after_processed (uid : Nat) (hash : String)
    (calls : List (Nat × Bool)) (st : Sys)
    (hhex : hexOk64 hash = true)
    (hget : cacheGet st.cache ("deposit:" ++ hash) = none) :
    runPolls uid hash calls st =
      (calls.map (fun _ => .invoiceNotFound), st) := by
  induction calls with
  | nil => rfl
  | cons c rest ih =>
      cases c with
      | mk n p =>
          have h1 := depositStatus_no_intent uid hash n p st hhex hget
          simp only [List.map, runPolls, h1]
          rw [ih]

/-- Helper: runPolls distributes over list concatenation. -/
theorem runPolls_append (uid : Nat) (hash : String)
    (a b : List (Nat × Bool)) (st : Sys) :
    runPolls uid hash (a ++ b) st =
      ((runPolls uid hash a st).1 ++
          (runPolls uid hash b (runPolls uid hash a st).2).1,
        (runPolls uid hash b (runPolls uid hash a st).2).2) := by
  induction a generalizing st with
  | nil => simp [runPolls]
  | cons c rest ih =>
      cases c with
      | mk n p => simp [runPolls, ih]

/-- C4 (counterexample).  The claim asserts that after the winning call,
every later status call returns paid alreadyProcessed.  On a live intent
and two sequential polls after confirmation, the first call wins the
delete and credits; the second finds no intent and is answered 404
Invoice not found, not alreadyProcessed. -/
theorem deposit_poll_counterexample :
    (runPolls 1 hex64a [(0, true), (0, true)] sysWithDeposit).1 =
      [.paidOk 1000, .invoiceNotFound] ∧
      (runPolls 1 hex64a [(0, true), (0, true)] sysWithDeposit).1.getLast? ≠
        some (.paidAlreadyProcessed 1000) := by
  decide

/-- C4 (amended).  For a live deposit intent, any number of in-window
polls before confirmation followed by a confirming poll and arbitrary
later calls credits the wallet and appends the deposit journal row exactly
once: the unpaid polls change nothing, the first paid poll wins the atomic
cache delete of deposit:<hash> and performs the credit, every later
sequential call finds no intent and is answered 404, and a concurrent
claimant that loaded the intent but loses the delete (its del returns
false) answers paid alreadyProcessed without crediting. -/
theorem depositStatus_credits_exactly_once
    (uid amt createdAt now1 : Nat) (hash : String)
    (preNows : List Nat) (postCalls : List (Nat × Bool)) (st : Sys)
    (hhex : hexOk64 hash = true)
    (hget : cacheGet st.cache ("deposit:" ++ hash) =
      some (.depositIntent uid amt createdAt))
    (hpre : ∀ n ∈ preNows, n - createdAt ≤ DEPOSIT_TTL * 1000)
    (hn1 : now1 - createdAt ≤ DEPOSIT_TTL * 1000) :
    (runPolls uid hash
        (preNows.map (fun n => (n, false)) ++ (now1, true) :: postCalls)
        st).1 =
      preNows.map (fun _ => .notPaidNotExpired) ++
        .paidOk amt :: postCalls.map (fun _ => .invoiceNotFound) ∧
    (runPolls uid hash
        (preNows.map (fun n => (n, false)) ++ (now1, true) :: postCalls)
        st).2.db.txs =
      st.db.txs ++
        [⟨uid, .deposit, (amt : Int), "Lightning deposit", some hash⟩] ∧
    walletBalance
        (runPolls uid hash
          (preNows.map (fun n => (n, false)) ++ (now1, true) :: postCalls)
          st).2.db uid =
      walletBalance st.db uid + amt ∧
    (∀ st2, cacheHas st2.cache ("deposit:" ++ hash) = false →
      (depositClaimAndCredit uid amt hash st2).resp =
          .paidAlreadyProcessed amt ∧
        (depositClaimAndCredit uid amt hash st2).sys.db = st2.db) := by
  have hpreRun := runPolls_unpaid uid amt createdAt hash preNows st hhex hget
    hpre
  have hwin := depositStatus_first_paid uid amt createdAt now1 hash st hhex
    hget hn1
  have hgone1 := cacheGet_after_del st.cache ("deposit:" ++ hash)
  have hgone := cacheGet_del_preserve_none _ ("deposit:" ++ hash)
    ("deposit:user:" ++ toString uid) hgone1
  have hrest := runPolls_after_processed uid hash postCalls
    ⟨(cacheDel (cacheDel st.cache ("deposit:" ++ hash)).2
        ("deposit:user:" ++ toString uid)).2,
      dbCredit st.db uid amt .deposit "Lightning deposit" (some hash)⟩
    hhex hgone
  rw [runPolls_append, hpreRun]
  refine ⟨?_, ?_, ?_, ?_⟩
  · simp only [runPolls, hwin, hrest]
  · simp only [runPolls, hwin, hrest]
    simp [dbCredit]
  · simp only [runPolls, hwin, hrest]
    simp only [dbCredit, walletBalance]
    exact walletBalance_bumpWallet st.db.wallets uid amt
  · intro st2 h2
    exact depositClaimAndCredit_loser uid amt hash st2 h2

/-- Witness for C4: the exactly-once run at a concrete live intent. -/
theorem depositStatus_credits_exactly_once_witness :
    (runPolls 1 hex64a [(0, true)] sysWithDeposit).1 = [.paidOk 1000] ∧
      walletBalance
        (runPolls 1 hex64a [(0, true)] sysWithDeposit).2.db 1 = 1000 := by
  have h := depositStatus_credits_exactly_once 1 1000 0 0 hex64a [] []
    sysWithDeposit (by decide) (by decide) (by simp) (by decide)
  refine ⟨by simpa using h.1, ?_⟩
  have h3 := h.2.2.1
  simpa [sysWithDeposit, emptyDb, walletBalance] using h3

end BitBreaker
